import Mathlib

/-!
Shallow embedding of the mcumgr-ts protocol engine (src/unnamed/part_000:
frame codec `_sendMessage` / `_processMessage`, reassembly `_notification`,
upload engine `cmdUpload` / `_uploadNext`, image parser `imageInfo` /
`_extractTlvs`).  Byte buffers are `List Nat` with values < 256; JavaScript
out-of-bounds reads (`undefined`) and NaN arithmetic are modelled with
`Option Nat`; thrown exceptions are modelled with `Except`.  The external
CBOR codec (`cborg`) is a parameter; the hash primitive
(`crypto.subtle.digest` with algorithm SHA-256) is implemented concretely
below.
-/

deriving instance DecidableEq for Except

set_option maxRecDepth 100000

namespace Mcu

/-- JavaScript `Uint8Array` indexing: an out-of-bounds read yields
`undefined`, modelled as `none`. -/
def jsGet (l : List Nat) (i : Nat) : Option Nat := l.get? i

/-- JavaScript multiplication where the left operand may be `undefined`
(`undefined * n` is `NaN`, modelled as `none`). -/
def jsMulC (a : Option Nat) (n : Nat) : Option Nat := a.map (· * n)

/-- JavaScript addition where either operand may be `undefined`/`NaN`. -/
def jsAddC : Option Nat → Option Nat → Option Nat
  | some a, some b => some (a + b)
  | _, _ => none

/-- JavaScript `n < m` where `m` may be `NaN`: any comparison with `NaN`
is `false`. -/
def jsLtLen (n : Nat) : Option Nat → Bool
  | some m => decide (n < m)
  | none => false

/-- `ToIntegerOrInfinity` as applied by `slice` to its end index:
`NaN` becomes `0`. -/
def jsToIndex : Option Nat → Nat
  | some n => n
  | none => 0

/-- `ArrayBuffer.slice(s, e)` with non-negative indices: both ends are
clamped to the buffer length, and `e ≤ s` yields an empty result. -/
def jsSliceNat (l : List Nat) (s e : Nat) : List Nat := (l.take e).drop s

/-- `ArrayBuffer.slice(s, e)` where the end index may be negative
(a negative index counts from the end of the buffer). -/
def jsSliceInt (l : List Nat) (s : Nat) (e : Int) : List Nat :=
  let ee : Nat := if e < 0 then l.length - min l.length e.natAbs else min e.toNat l.length
  (l.take ee).drop s

/-- Errors thrown by the image parser (`imageInfo` / `_extractTlvs`).
`rangeErr` stands for the `RangeError` a bounds-checked `DataView` read
throws. -/
inductive ImgErr where
  | tooShort
  | badMagic
  | badLoadAddress
  | badImageSize
  | badFlags
  | badProtTlvMagic
  | badTlvMagic
  | rangeErr
  deriving DecidableEq, Repr

/-- `DataView.getUint16(o, littleEndian)`: bounds-checked 16-bit
little-endian read. -/
def readU16LE (l : List Nat) (o : Nat) : Except ImgErr Nat :=
  if o + 2 ≤ l.length then .ok (l.getD o 0 + 256 * l.getD (o + 1) 0) else .error .rangeErr

/-- Unchecked 16-bit little-endian read; used only at offsets that the
`length ≥ 32` guard has already shown to be in bounds. -/
def getU16LE (l : List Nat) (o : Nat) : Nat := l.getD o 0 + 256 * l.getD (o + 1) 0

/-- Unchecked 32-bit little-endian read; used only at offsets that the
`length ≥ 32` guard has already shown to be in bounds. -/
def getU32LE (l : List Nat) (o : Nat) : Nat :=
  l.getD o 0 + 256 * l.getD (o + 1) 0 + 65536 * l.getD (o + 2) 0 + 16777216 * l.getD (o + 3) 0

/-! ## SHA-256 (`crypto.subtle.digest('SHA-256', …)`) -/

/-- Rotate a value right by `n` bit positions within a 32-bit word,
phrased over `Nat` with division and remainder by powers of two. -/
def rotr32 (x n : Nat) : Nat := (x / 2 ^ n + x % 2 ^ n * 2 ^ (32 - n)) % 4294967296

/-- The sixty-four round words of the SHA-256 schedule constant table,
written in decimal. -/
def sha256K : Array Nat := #[
  1116352408, 1899447441, 3049323471, 3921009573,
  961987163, 1508970993, 2453635748, 2870763221,
  3624381080, 310598401, 607225278, 1426881987,
  1925078388, 2162078206, 2614888103, 3248222580,
  3835390401, 4022224774, 264347078, 604807628,
  770255983, 1249150122, 1555081692, 1996064986,
  2554220882, 2821834349, 2952996808, 3210313671,
  3336571891, 3584528711, 113926993, 338241895,
  666307205, 773529912, 1294757372, 1396182291,
  1695183700, 1986661051, 2177026350, 2456956037,
  2730485921, 2820302411, 3259730800, 3345764771,
  3516065817, 3600352804, 4094571909, 275423344,
  430227734, 506948616, 659060556, 883997877,
  958139571, 1322822218, 1537002063, 1747873779,
  1955562222, 2024104815, 2227730452, 2361852424,
  2428436474, 2756734187, 3204031479, 3329325298]

/-- SHA-256 working state. -/
structure Sha256St where
  a : Nat
  b : Nat
  c : Nat
  d : Nat
  e : Nat
  f : Nat
  g : Nat
  h : Nat
  deriving DecidableEq, Repr

/-- Starting value of the SHA-256 working state, in decimal. -/
def sha256Init : Sha256St :=
  ⟨1779033703, 3144134277, 1013904242, 2773480762,
   1359893119, 2600822924, 528734635, 1541459225⟩

/-- SHA-256 padding: append `0x80`, zeros, and the 64-bit big-endian bit
length, to a multiple of 64 bytes. -/
def sha256Pad (m : List Nat) : List Nat :=
  let l := m.length
  let z := (119 - l % 64) % 64
  let bits := 8 * l
  m ++ [0x80] ++ List.replicate z 0 ++
    [bits / 2 ^ 56 % 256, bits / 2 ^ 48 % 256, bits / 2 ^ 40 % 256, bits / 2 ^ 32 % 256,
     bits / 2 ^ 24 % 256, bits / 2 ^ 16 % 256, bits / 2 ^ 8 % 256, bits % 256]

/-- Split a byte list into 64-byte chunks (fuel-based structural recursion
so that the kernel can evaluate it; `fuel ≥ l.length` always suffices). -/
def chunks64Aux : Nat → List Nat → List (List Nat)
  | 0, _ => []
  | _, [] => []
  | fuel + 1, l => l.take 64 :: chunks64Aux fuel (l.drop 64)

/-- Split a byte list into 64-byte chunks. -/
def chunks64 (l : List Nat) : List (List Nat) := chunks64Aux l.length l

/-- The first 16 message-schedule words (big-endian) of one 64-byte chunk. -/
def sha256Words (chunk : List Nat) : Array Nat :=
  ((List.range 16).map (fun i =>
    chunk.getD (4 * i) 0 * 16777216 + chunk.getD (4 * i + 1) 0 * 65536 +
    chunk.getD (4 * i + 2) 0 * 256 + chunk.getD (4 * i + 3) 0)).toArray

/-- Extend 16 schedule words to 64. -/
def sha256Sched (ws : Array Nat) : Array Nat :=
  (List.range 48).foldl (fun w i =>
    let j := i + 16
    let x15 := w.getD (j - 15) 0
    let x2 := w.getD (j - 2) 0
    let s0 := rotr32 x15 7 ^^^ rotr32 x15 18 ^^^ (x15 / 2 ^ 3)
    let s1 := rotr32 x2 17 ^^^ rotr32 x2 19 ^^^ (x2 / 2 ^ 10)
    w.push ((w.getD (j - 16) 0 + s0 + w.getD (j - 7) 0 + s1) % 4294967296)) ws

/-- One SHA-256 compression round. -/
def sha256Round (st : Sha256St) (k w : Nat) : Sha256St :=
  let s1 := rotr32 st.e 6 ^^^ rotr32 st.e 11 ^^^ rotr32 st.e 25
  let ch := (st.e &&& st.f) ^^^ ((st.e ^^^ 0xffffffff) &&& st.g)
  let t1 := (st.h + s1 + ch + k + w) % 4294967296
  let s0 := rotr32 st.a 2 ^^^ rotr32 st.a 13 ^^^ rotr32 st.a 22
  let mj := (st.a &&& st.b) ^^^ (st.a &&& st.c) ^^^ (st.b &&& st.c)
  let t2 := (s0 + mj) % 4294967296
  ⟨(t1 + t2) % 4294967296, st.a, st.b, st.c, (st.d + t1) % 4294967296, st.e, st.f, st.g⟩

/-- SHA-256 compression of one chunk into the running state. -/
def sha256Compress (st : Sha256St) (chunk : List Nat) : Sha256St :=
  let w := sha256Sched (sha256Words chunk)
  let r := (List.range 64).foldl (fun s i => sha256Round s (sha256K.getD i 0) (w.getD i 0)) st
  ⟨(st.a + r.a) % 4294967296, (st.b + r.b) % 4294967296, (st.c + r.c) % 4294967296,
   (st.d + r.d) % 4294967296, (st.e + r.e) % 4294967296, (st.f + r.f) % 4294967296,
   (st.g + r.g) % 4294967296, (st.h + r.h) % 4294967296⟩

/-- One 32-bit word as 4 big-endian bytes. -/
def be32 (w : Nat) : List Nat := [w / 2 ^ 24 % 256, w / 2 ^ 16 % 256, w / 2 ^ 8 % 256, w % 256]

/-- SHA-256 digest of a byte list, as 32 bytes. -/
def sha256Bytes (m : List Nat) : List Nat :=
  let st := (chunks64 (sha256Pad m)).foldl sha256Compress sha256Init
  be32 st.a ++ be32 st.b ++ be32 st.c ++ be32 st.d ++ be32 st.e ++ be32 st.f ++ be32 st.g ++ be32 st.h

/-- A SHA-256 digest is always 32 bytes. -/
theorem sha256Bytes_length (m : List Nat) : (sha256Bytes m).length = 32 := by
  simp [sha256Bytes, be32]

/-! ## Image parser (`imageInfo` and `_extractTlvs`) -/

/-- Image version fields (`SemVersion` in the source). -/
structure SemVersion where
  major : Nat
  minor : Nat
  revision : Nat
  build : Nat
  deriving DecidableEq, Repr

/-- Result of parsing a firmware image (`McuImageInfo` in the source).
`tags` models the JS numeric-keyed object written by
`info.tags[tlv.tag] = tlv.value`: a later write shadows an earlier one,
so entries are prepended and lookup takes the first match. -/
structure McuImageInfo where
  imageSize : Nat
  version : SemVersion
  hash : List Nat
  hashValid : Bool
  tags : List (Nat × List Nat)
  deriving DecidableEq, Repr

/-- Lookup in the tag map: first (most recent) binding wins. -/
def tagsLookup (tags : List (Nat × List Nat)) (t : Nat) : Option (List Nat) :=
  (tags.find? (fun p => p.1 == t)).map (·.2)

/-- Assign each extracted TLV entry into the tag map in iteration order
(`info.tags[tlv.tag] = tlv.value`): each write shadows previous bindings
of the same tag. -/
def tagsInsert (tags : List (Nat × List Nat)) (entries : List (Nat × List Nat)) :
    List (Nat × List Nat) :=
  entries.foldl (fun acc e => e :: acc) tags

/-- TLV iteration (`_extractTlvs`) from `offset`, fuel-based so that the
kernel can evaluate it: while inside the range, read `tag` (u16 LE) and
`len` (u16 LE) — both via bounds-checked `DataView` reads — then take the
value with `ArrayBuffer.slice` (which clamps to the range end) and advance
by `4 + len`.  Any `fuel` with `data.length < offset + fuel` gives the
loop's value (each step advances `offset` by at least 4), see
`extractTlvsAux_stable`. -/
def extractTlvsAux (data : List Nat) : Nat → Nat → Except ImgErr (List (Nat × List Nat))
  | 0, _ => .ok []
  | fuel + 1, offset =>
    if offset < data.length then
      match readU16LE data offset with
      | .error e => .error e
      | .ok tag =>
        match readU16LE data (offset + 2) with
        | .error e => .error e
        | .ok len =>
          match extractTlvsAux data fuel (offset + 4 + len) with
          | .error e => .error e
          | .ok rest => .ok ((tag, jsSliceNat data (offset + 4) (offset + 4 + len)) :: rest)
    else .ok []

/-- The `_extractTlvs` loop from a given offset. -/
def extractTlvsFrom (data : List Nat) (offset : Nat) :
    Except ImgErr (List (Nat × List Nat)) :=
  extractTlvsAux data (data.length + 1) offset

/-- `_extractTlvs` over a whole (already sliced) range. -/
def extractTlvs (data : List Nat) : Except ImgErr (List (Nat × List Nat)) :=
  extractTlvsFrom data 0

/-- The fuel argument of `extractTlvsAux` is irrelevant once it exceeds
`data.length - offset`: the loop advances by at least 4 per step. -/
theorem extractTlvsAux_stable (data : List Nat) :
    ∀ fuelA fuelB offset, data.length < offset + fuelA → data.length < offset + fuelB →
      extractTlvsAux data fuelA offset = extractTlvsAux data fuelB offset := by
  intro fuelA
  induction fuelA with
  | zero =>
    intro fuelB offset hA hB
    cases fuelB with
    | zero => rfl
    | succ fb =>
      simp only [extractTlvsAux]
      have : ¬ offset < data.length := by omega
      simp [this]
  | succ fa ih =>
    intro fuelB offset hA hB
    cases fuelB with
    | zero =>
      simp only [extractTlvsAux]
      have : ¬ offset < data.length := by omega
      simp [this]
    | succ fb =>
      simp only [extractTlvsAux]
      by_cases hlt : offset < data.length
      · simp only [hlt, if_true]
        cases readU16LE data offset with
        | error e => rfl
        | ok tag =>
          cases readU16LE data (offset + 2) with
          | error e => rfl
          | ok len =>
            dsimp only
            rw [ih fb (offset + 4 + len) (by omega) (by omega)]
      · simp [hlt]

/-- The `hashValid` computation at the end of `imageInfo`:
`16 in info.tags && info.tags[16].length == hash.length` guards an
element-by-element `every` comparison with the computed hash. -/
def hashValidOf (tags : List (Nat × List Nat)) (hash : List Nat) : Bool :=
  match tagsLookup tags 16 with
  | some v => v.length == hash.length && v == hash
  | none => false

/-- The protected-TLV block of `imageInfo`: when `protectedTlvLength > 0`,
expect magic `0x6908` at `offset0 = headerSize + imageSize`, read the area
end (relative to `offset0`), extract its TLVs into the tag map, and
continue at the area end; otherwise continue at `offset0` with no tags. -/
def protTlvStep (image : List Nat) (protectedTlvLength offset0 : Nat) :
    Except ImgErr (List (Nat × List Nat) × Nat) :=
  if protectedTlvLength > 0 then
    match readU16LE image offset0 with
    | .error e => .error e
    | .ok m =>
      if m ≠ 0x6908 then .error .badProtTlvMagic
      else
        match readU16LE image (offset0 + 2) with
        | .error e => .error e
        | .ok rel =>
          match extractTlvs (jsSliceNat image (offset0 + 4) (rel + offset0)) with
          | .error e => .error e
          | .ok entries => .ok (tagsInsert [] entries, rel + offset0)
  else .ok ([], offset0)

/-- The unprotected-trailer block of `imageInfo`: expect magic `0x6907` at
`offset1`, read the area end, extract its TLVs (overwriting same-tag
protected entries), and assemble the descriptor with the `hashValid`
verdict. -/
def imageInfoTail (image : List Nat) (imageSize : Nat) (version : SemVersion)
    (hash : List Nat) (tags1 : List (Nat × List Nat)) (offset1 : Nat) :
    Except ImgErr McuImageInfo :=
  match readU16LE image offset1 with
  | .error e => .error e
  | .ok m2 =>
    if m2 ≠ 0x6907 then .error .badTlvMagic
    else
      match readU16LE image (offset1 + 2) with
      | .error e => .error e
      | .ok rel2 =>
        match extractTlvs (jsSliceNat image (offset1 + 4) (rel2 + offset1)) with
        | .error e => .error e
        | .ok entries2 =>
          let tags := tagsInsert tags1 entries2
          .ok ⟨imageSize, version, hash, hashValidOf tags hash, tags⟩

/-- The image parser `imageInfo`, transcribed check by check from the
source.  Header fields are read with unchecked little-endian reads only at
offsets the `length ≥ 32` guard puts in bounds; the TLV-area reads keep the
`DataView` bounds check. -/
def imageInfo (image : List Nat) : Except ImgErr McuImageInfo :=
  if image.length < 32 then .error .tooShort
  else if getU32LE image 0 ≠ 0x96f3b83d then .error .badMagic
  else if getU32LE image 4 ≠ 0 then .error .badLoadAddress
  else
    let headerSize := getU16LE image 8
    let protectedTlvLength := getU16LE image 10
    let imageSize := getU32LE image 12
    if image.length < imageSize + headerSize then .error .badImageSize
    else if getU32LE image 16 ≠ 0 then .error .badFlags
    else
      let version : SemVersion :=
        ⟨image.getD 20 0, image.getD 21 0, getU16LE image 22, getU32LE image 24⟩
      let hash := sha256Bytes (jsSliceNat image 0 (headerSize + imageSize + protectedTlvLength))
      match protTlvStep image protectedTlvLength (headerSize + imageSize) with
      | .error e => .error e
      | .ok (tags1, offset1) => imageInfoTail image imageSize version hash tags1 offset1

/-! ## Frame codec (`_sendMessage` header build, `_processMessage` header read) -/

/-- The bytes `_sendMessage` hands to the transport: the encoded body (the
`if (data)` truthiness test decides whether anything is encoded at all)
behind the 8-byte header `[op, flags=0, len_hi, len_lo, group_hi, group_lo,
seq, id]`; `Uint8Array.from` reduces every element mod 256.  `>> 8` and
`& 255` on the non-negative JS numbers are `/ 256` and `% 256`. -/
def sendMessageBytes {α : Type} (enc : α → List Nat) (tr : α → Bool)
    (op group seq id : Nat) (data : Option α) : List Nat :=
  let encodedData : List Nat :=
    match data with
    | some v => if tr v then enc v else []
    | none => []
  ([op, 0, encodedData.length / 256, encodedData.length % 256,
    group / 256, group % 256, seq, id] ++ encodedData).map (· % 256)

/-- The fields `_processMessage` destructures and reconstructs from a
received frame: positional header bytes (out-of-bounds destructuring gives
`undefined`), `length = length_hi * 256 + length_lo`,
`group = group_hi * 256 + group_lo`, and the body decoded from byte 8 on. -/
structure FrameFields (β : Type) where
  op : Option Nat
  group : Option Nat
  id : Option Nat
  len : Option Nat
  body : Option β
  deriving DecidableEq, Repr

/-- Header destructuring plus body decode, as done by `_processMessage`.
`body = none` models the decode exception. -/
def frameFields {β : Type} (dec : List Nat → Option β) (msg : List Nat) : FrameFields β :=
  { op := jsGet msg 0
    group := jsAddC (jsMulC (jsGet msg 4) 256) (jsGet msg 5)
    id := jsGet msg 7
    len := jsAddC (jsMulC (jsGet msg 2) 256) (jsGet msg 3)
    body := dec (msg.drop 8) }

/-! ## Upload engine (`_upload` state, `_uploadNext`, `cmdUpload`,
`_processMessage` routing) -/

/-- The projections of a decoded response body that `_processMessage`
inspects: `data.rc` and `data.off` (absent field ⇒ `none`). -/
structure MsgData where
  rc : Option Nat
  off : Option Nat
  deriving DecidableEq, Repr

/-- JS truthiness of a possibly-absent number: `undefined` and `0` are
falsy. -/
def jsTruthy : Option Nat → Bool
  | some n => n != 0
  | none => false

/-- The upload chunk payload object (`MCUPayload` in `_uploadNext`):
`len` and `sha` are present only on the first chunk. -/
structure Chunk where
  data : List Nat
  off : Nat
  len : Option Nat
  sha : Option (List Nat)
  deriving DecidableEq, Repr

/-- Externally visible outcome of one `_uploadNext` run. -/
inductive UploadEvent where
  | noImage
  | finished (hash : Option (List Nat))
  | sent (c : Chunk)
  deriving DecidableEq, Repr

/-- The `_upload` session state (instrumentation fields omitted).
`timerArmed` models whether the retry timeout is pending. -/
structure UploadState where
  isInProgress : Bool
  offset : Nat
  image : Option (List Nat)
  imageInfo : Option McuImageInfo
  timerArmed : Bool
  deriving DecidableEq, Repr

/-- `_uploadNext`: no stored image ⇒ log and return; `offset ≥ byteLength`
⇒ set `isInProgress := false` and emit `imageUploadFinished` with
`imageInfo?.hash` (nothing else of the session is cleared); otherwise
re-arm the retry timer, build `{data: [], off}` plus `{len, sha:
SHA-256(image)}` when `offset === 0`, size the data slice to
`mtu - encode(payload).byteLength - 8`, and send. -/
def uploadNext (enc : Chunk → List Nat) (mtu : Nat) (st : UploadState) :
    UploadState × UploadEvent :=
  match st.image with
  | none => (st, .noImage)
  | some img =>
    if img.length ≤ st.offset then
      ({ st with isInProgress := false }, .finished (st.imageInfo.map (·.hash)))
    else
      let base : Chunk :=
        { data := []
          off := st.offset
          len := if st.offset = 0 then some img.length else none
          sha := if st.offset = 0 then some (sha256Bytes img) else none }
      let budget : Int := (mtu : Int) - ((enc base).length : Int) - 8
      let chunkData := jsSliceInt img st.offset ((st.offset : Int) + budget)
      ({ st with timerArmed := true }, .sent { base with data := chunkData })

/-- Result of a `cmdUpload` call. -/
inductive StartResult where
  | busy
  | parseFailed (e : ImgErr)
  | started (ev : UploadEvent)
  deriving DecidableEq, Repr

/-- `cmdUpload`: reject when `isInProgress`; otherwise set
`isInProgress := true`, reset `offset`, store the image, parse it with
`imageInfo` (a parse exception escapes here, after those assignments), and
run one `_uploadNext`. -/
def cmdUpload (enc : Chunk → List Nat) (mtu : Nat) (st : UploadState) (image : List Nat) :
    UploadState × StartResult :=
  if st.isInProgress then (st, .busy)
  else
    let st1 : UploadState := { st with isInProgress := true, offset := 0, image := some image }
    match imageInfo image with
    | .error e => (st1, .parseFailed e)
    | .ok info =>
      let st2 := { st1 with imageInfo := some info }
      let (st3, ev) := uploadNext enc mtu st2
      (st3, .started ev)

/-- What `_processMessage` does with a decoded frame: consume it as an
upload acknowledgement (driving `_uploadNext`), or dispatch it once on the
generic `message` channel. -/
inductive ProcResult where
  | consumed (ev : UploadEvent)
  | message (v : FrameFields MsgData)
  deriving DecidableEq, Repr

/-- `_processMessage`: decode the body (a decode exception propagates);
a truthy `data.rc` only logs and falls through to the generic dispatch;
`group === Image && id === Upload && data.off` (truthiness!) cancels the
retry timer, sets `offset = data.off`, runs `_uploadNext` and returns
without dispatching; everything else is dispatched once. -/
def processMessage (dec : List Nat → Option MsgData) (enc : Chunk → List Nat) (mtu : Nat)
    (st : UploadState) (msg : List Nat) : Except Unit (UploadState × ProcResult) :=
  match dec (msg.drop 8) with
  | none => .error ()
  | some d =>
    let v := frameFields dec msg
    if jsTruthy d.rc then .ok (st, .message v)
    else if v.group == some 1 && v.id == some 1 && jsTruthy d.off then
      let st1 := { st with offset := d.off.getD 0, timerArmed := false }
      let (st2, ev) := uploadNext enc mtu st1
      .ok (st2, .consumed ev)
    else .ok (st, .message v)

/-! ## Reassembly buffer (`_notification`) -/

/-- One `_notification` call: append the fragment, read
`buffer[2] * 256 + buffer[3]` (out-of-bounds ⇒ `NaN`), wait unless
`buffer.length < messageLength + 8` is false (it is false for `NaN`!),
slice off the first `messageLength + 8` bytes (`NaN` ⇒ empty slice) and
hand them to `_processMessage`, whose body decode may throw — in which
case the buffer-trimming assignment is never reached.  On error the
`Except` carries the buffer as left behind; on success it carries the new
buffer and the frame that was extracted and processed (if any). -/
def notificationStep (dec : List Nat → Option MsgData) (buffer fragment : List Nat) :
    Except (List Nat) (List Nat × Option (List Nat)) :=
  let buf := buffer ++ fragment
  let messageLength := jsAddC (jsMulC (jsGet buf 2) 256) (jsGet buf 3)
  let total := jsAddC messageLength (some 8)
  if jsLtLen buf.length total then .ok (buf, none)
  else
    let frame := buf.take (jsToIndex total)
    match dec (frame.drop 8) with
    | none => .error buf
    | some _ => .ok (buf.drop (jsToIndex total), some frame)

/-- Outcome of feeding a sequence of fragments through `_notification`:
final buffer, the frames extracted (in order), and how many deliveries
ended in a thrown decode exception. -/
structure RunOut where
  buffer : List Nat
  extracted : List (List Nat)
  errs : Nat
  deriving DecidableEq, Repr

/-- Feed fragments one `_notification` call at a time; a thrown exception
leaves the buffer as the handler left it. -/
def runFragments (dec : List Nat → Option MsgData) :
    List Nat → List (List Nat) → RunOut
  | buffer, [] => ⟨buffer, [], 0⟩
  | buffer, f :: fs =>
    match notificationStep dec buffer f with
    | .ok (b, none) => runFragments dec b fs
    | .ok (b, some fr) =>
      let r := runFragments dec b fs
      ⟨r.buffer, fr :: r.extracted, r.errs⟩
    | .error b =>
      let r := runFragments dec b fs
      ⟨r.buffer, r.extracted, r.errs + 1⟩

/-! ## Concrete instances used by counterexamples and witnesses -/

/-- A trivial body encoder for chunk payloads (the CBOR codec is external;
instances only need some definite function). -/
def encZero : Chunk → List Nat := fun _ => []

/-- The engine state after construction: no session. -/
def idleState : UploadState := ⟨false, 0, none, none, false⟩

/-- A valid 32-byte MCUboot header: magic `0x96f3b83d`, load address 0,
`headerSize = 32`, `protectedTlvAreaSize = 0`, `imageSize = 0`, flags 0,
version 1.2.3+7. -/
def imgHeader : List Nat :=
  [0x3d, 0xb8, 0xf3, 0x96, 0, 0, 0, 0, 32, 0, 0, 0, 0, 0, 0, 0,
   0, 0, 0, 0, 1, 2, 3, 0, 7, 0, 0, 0, 0, 0, 0, 0]

/-- A parser-accepted image: header plus an empty unprotected TLV trailer
(magic `0x6907`, area length 4). -/
def imgNoTags : List Nat := imgHeader ++ [0x07, 0x69, 4, 0]

/-- A parser-accepted image whose trailer carries tag 16 with the correct
digest of the hashed prefix `imgHeader`. -/
def imgGoodHash : List Nat :=
  imgHeader ++ [0x07, 0x69, 40, 0, 16, 0, 32, 0] ++ sha256Bytes imgHeader

/-- The descriptor `imageInfo` produces for `imgGoodHash`. -/
def imgGoodHashInfo : McuImageInfo :=
  ⟨0, ⟨1, 2, 3, 7⟩, sha256Bytes imgHeader, true, [(16, sha256Bytes imgHeader)]⟩

/-- A decoder instance mapping body `[7]` to `{off: 0}` with no `rc`
(CBOR-like: rejects everything else, in particular the empty body). -/
def decAck0 : List Nat → Option MsgData :=
  fun b => if b == [7] then some ⟨none, some 0⟩ else none

/-- An Image/Upload response frame (`group = 1`, `id = 1`) whose body
decodes to `{off: 0}` under `decAck0`. -/
def ackFrame0 : List Nat := [3, 0, 0, 1, 0, 1, 0, 1, 7]

/-- A decoder instance mapping body `[9]` to `{off: 5}` with no `rc`. -/
def decAck5 : List Nat → Option MsgData :=
  fun b => if b == [9] then some ⟨none, some 5⟩ else none

/-- An Image/Upload response frame whose body decodes to `{off: 5}`
under `decAck5`. -/
def ackFrame5 : List Nat := [3, 0, 0, 1, 0, 1, 0, 1, 9]

/-- A decoder instance for the two-frames-in-one-fragment scenario:
accepts the one-byte bodies `[5]` and `[6]`, rejects everything else. -/
def decFrames : List Nat → Option MsgData :=
  fun b => if b == [5] || b == [6] then some ⟨none, none⟩ else none

/-- A complete frame: body length field 1, body `[5]`. -/
def frameA : List Nat := [2, 0, 0, 1, 0, 0, 0, 0, 5]

/-- A second complete frame: body length field 1, body `[6]`. -/
def frameB : List Nat := [2, 0, 0, 1, 0, 0, 1, 0, 6]

/-- A CBOR-like decoder that rejects the empty byte string (as `cborg`
does) and accepts any non-empty body. -/
def decNonEmpty : List Nat → Option MsgData :=
  fun b => if b == [] then none else some ⟨none, none⟩

/-- A decoder instance mapping body `[8]` to `{off: 36}` with no `rc`. -/
def decAck36 : List Nat → Option MsgData :=
  fun b => if b == [8] then some ⟨none, some 36⟩ else none

/-- An Image/Upload response frame whose body decodes to `{off: 36}`
under `decAck36`. -/
def ackFrame36 : List Nat := [3, 0, 0, 1, 0, 1, 0, 1, 8]

/-- A session mid-upload of `imgNoTags` (36 bytes): in progress, parsed
descriptor stored, retry timer armed. -/
def uploadingState : UploadState :=
  ⟨true, 0, some imgNoTags, (imageInfo imgNoTags).toOption, true⟩

/-- The state `_processMessage` + `_uploadNext` leave behind once the
final acknowledgement (`off = 36`) of the `imgNoTags` upload is consumed:
done, but the image and descriptor are still stored. -/
def doneState : UploadState :=
  ⟨false, 36, some imgNoTags, (imageInfo imgNoTags).toOption, false⟩

/-- A concrete structured-value codec on `Nat` body values, with the
relevant properties of `cborg`: it round-trips small integers (`0`
included) and rejects the empty byte string. -/
def encNat : Nat → List Nat := fun n => [n % 256]

/-- Decoder half of the concrete `Nat` codec. -/
def decNat : List Nat → Option Nat :=
  fun b => match b with | [k] => some k | _ => none

/-- JS truthiness of a number body value: `0` is falsy. -/
def trNat : Nat → Bool := fun n => n != 0

/-- Decoder for the poisoned-buffer scenario: accepts body `[1]`,
rejects everything else (in particular body `[2]`). -/
def decOnly1 : List Nat → Option MsgData :=
  fun b => if b == [1] then some ⟨none, none⟩ else none

/-- A buffer holding one complete frame whose body `[2]` fails to decode
under `decOnly1`. -/
def badBuf : List Nat := [0, 0, 0, 1, 0, 0, 0, 0, 2]

/-! ## Parser characterization lemmas -/

/-- Whatever descriptor `imageInfoTail` produces carries exactly the hash
it was given, the `hashValidOf` verdict over its own tags, and the given
size and version. -/
theorem imageInfoTail_ok (image : List Nat) (imageSize : Nat) (version : SemVersion)
    (hash : List Nat) (tags1 : List (Nat × List Nat)) (offset1 : Nat) (info : McuImageInfo)
    (hok : imageInfoTail image imageSize version hash tags1 offset1 = .ok info) :
    info.hash = hash ∧ info.hashValid = hashValidOf info.tags hash ∧
    info.imageSize = imageSize ∧ info.version = version := by
  unfold imageInfoTail at hok
  split at hok
  · exact absurd hok (by simp)
  · split at hok
    · exact absurd hok (by simp)
    · split at hok
      · exact absurd hok (by simp)
      · split at hok
        · exact absurd hok (by simp)
        · simp only [Except.ok.injEq] at hok
          subst hok
          exact ⟨rfl, rfl, rfl, rfl⟩

/-- A successful parse has a 32-byte-or-longer image, a hash that is the
SHA-256 of `image[0 : headerSize+imageSize+protectedTlvAreaSize]` (header
fields read little-endian at offsets 8, 12 and 10), and a `hashValid`
verdict that is exactly `hashValidOf` of its tags against that hash. -/
theorem imageInfo_ok_spec (img : List Nat) (info : McuImageInfo)
    (hok : imageInfo img = .ok info) :
    32 ≤ img.length ∧
    info.hash = sha256Bytes (jsSliceNat img 0 (getU16LE img 8 + getU32LE img 12 + getU16LE img 10)) ∧
    info.hashValid = hashValidOf info.tags info.hash := by
  unfold imageInfo at hok
  dsimp only at hok
  split at hok
  · exact absurd hok (by simp)
  rename_i h32
  split at hok
  · exact absurd hok (by simp)
  split at hok
  · exact absurd hok (by simp)
  split at hok
  · exact absurd hok (by simp)
  split at hok
  · exact absurd hok (by simp)
  split at hok
  · exact absurd hok (by simp)
  obtain ⟨hh, hv, _, _⟩ := imageInfoTail_ok _ _ _ _ _ _ _ hok
  refine ⟨by omega, by rw [hh], by rw [hv, hh]⟩

/-- C1: the claim states that when `cmdUpload` is called with no session
and the image parser fails, the engine is left `Idle` and a subsequent
`cmdUpload` is not rejected.  Evaluating the code at the failing input
(`cmdUpload` on an idle engine with a 0-byte image): the parse error is
surfaced and no chunk is sent, but `isInProgress` is left `true`, so the
very next `cmdUpload` on the same engine IS rejected as already in
progress. -/
theorem C1_parse_failure_leaves_engine_busy :
    (cmdUpload encZero 400 idleState []).2 = .parseFailed .tooShort ∧
    (cmdUpload encZero 400 idleState []).1.isInProgress = true ∧
    (cmdUpload encZero 400 (cmdUpload encZero 400 idleState []).1 imgNoTags).2 = .busy := by
  refine ⟨rfl, rfl, rfl⟩

/-! ## Claim C4 -/

/-- C4: the claim states that while fewer than 4 bytes are accumulated the
fragment handler extracts nothing, raises no error, and never reads the
length field.  Evaluating `_notification` at the failing input (a single
2-byte fragment on an empty accumulator): the out-of-bounds reads of
accumulator bytes 2–3 make `messageLength` NaN, the `length <
messageLength + 8` wait-guard is false for NaN, an empty slice is handed
to `decode`, and the decode of an empty body throws — the call raises an
error (with the bytes still buffered) instead of quietly waiting. -/
theorem C4_short_fragment_raises :
    notificationStep decNonEmpty [] [2, 0] = .error [2, 0] := by
  rfl

/-! ## Claim C2 -/

/-- C2 counterexample: a decoded frame with `groupId = Image`,
`commandId = Upload`, no `rc`, and `off = 0` is NOT consumed by the upload
engine — `data.off` is falsy for `0`, so the frame falls through to the
generic `message` dispatch, contradicting the claim's "for every value of
`off`, including `off = 0`". -/
theorem C2_off_zero_not_consumed :
    processMessage decAck0 encZero 400 idleState ackFrame0 =
      .ok (idleState, .message (frameFields decAck0 ackFrame0)) := by
  rfl

/-! ## Claim C3 -/

/-- C3 counterexample: two complete frames delivered concatenated in a
single `_notification` call yield exactly ONE extracted frame (the first);
the second frame's bytes stay in the accumulator, which is not empty. -/
theorem C3_two_frames_one_delivery :
    notificationStep decFrames [] (frameA ++ frameB) = .ok (frameB, some frameA) ∧
    frameB ≠ [] := by
  exact ⟨rfl, by decide⟩

/-! ## Claim C5 -/

/-- C5 counterexample: consuming the final acknowledgement (`off = 36`)
of a 36-byte upload emits `uploadFinished` and clears only `isInProgress`
— the image stays stored — and consuming one more identical
acknowledgement frame after completion emits `uploadFinished` a second
time. -/
theorem C5_finished_twice :
    processMessage decAck36 encZero 400 uploadingState ackFrame36 =
      .ok (doneState, .consumed (.finished (some (sha256Bytes imgHeader)))) ∧
    processMessage decAck36 encZero 400 doneState ackFrame36 =
      .ok (doneState, .consumed (.finished (some (sha256Bytes imgHeader)))) ∧
    doneState.image = some imgNoTags := by
  refine ⟨rfl, rfl, rfl⟩

/-! ## Claim C6 -/

/-- C6 counterexample: for the parser-accepted image `imgNoTags`, the
`sha` field of the chunk sent at `offset == 0` is the SHA-256 of the WHOLE
image, while the session's parsed hash (the one later carried by
`uploadFinished`) is the SHA-256 of
`image[0 : headerSize+imageSize+protectedTlvAreaSize]` — and the two
digests differ. -/
theorem C6_sha_not_imageHash :
    (cmdUpload encZero 400 idleState imgNoTags).2 =
      .started (.sent ⟨imgNoTags, 0, some 36, some (sha256Bytes imgNoTags)⟩) ∧
    (cmdUpload encZero 400 idleState imgNoTags).1.imageInfo.map (·.hash) =
      some (sha256Bytes imgHeader) ∧
    sha256Bytes imgNoTags ≠ sha256Bytes imgHeader := by
  refine ⟨rfl, rfl, by decide⟩

/-! ## Claim C8 -/

/-- C8 counterexample: a TLV entry whose declared length (5) overruns the
range end (0 value bytes available) does NOT fail with an error — the
`ArrayBuffer.slice` clamp silently truncates the value to the bytes that
exist and iteration ends normally. -/
theorem C8_silent_truncation :
    extractTlvs [16, 0, 5, 0] = .ok [(16, [])] := by
  rfl

/-- C2 (amended): for every decoded frame, if `rc` is absent or zero, the
header says `groupId = Image (1)` and `commandId = Upload (1)`, and `off`
is present AND NONZERO, then `_processMessage` consumes the frame — the
retry timer is cancelled, `session.offset` is set to the received `off`,
and `_uploadNext` is driven — and nothing is dispatched on the generic
message channel; every other decoded frame (non-zero `rc`, other
group/command, or `off` absent or zero) is dispatched on the generic
message channel exactly once (the single `message` result). -/
theorem C2_routing (dec : List Nat → Option MsgData) (enc : Chunk → List Nat) (mtu : Nat)
    (st : UploadState) (msg : List Nat) (d : MsgData)
    (hdec : dec (msg.drop 8) = some d) :
    ((d.rc = none ∨ d.rc = some 0) →
      (frameFields dec msg).group = some 1 → (frameFields dec msg).id = some 1 →
      ∀ k, d.off = some k → k ≠ 0 →
      processMessage dec enc mtu st msg =
        .ok ((uploadNext enc mtu { st with offset := k, timerArmed := false }).1,
          .consumed (uploadNext enc mtu { st with offset := k, timerArmed := false }).2)) ∧
    ((jsTruthy d.rc = true ∨ (frameFields dec msg).group ≠ some 1 ∨
        (frameFields dec msg).id ≠ some 1 ∨ jsTruthy d.off = false) →
      processMessage dec enc mtu st msg = .ok (st, .message (frameFields dec msg))) := by
  constructor
  · intro hrc hgroup hid k hoff hk
    have hrcF : jsTruthy d.rc = false := by
      rcases hrc with h | h <;> simp [jsTruthy, h]
    have hoffT : jsTruthy d.off = true := by simp [jsTruthy, hoff, hk]
    simp only [processMessage, hdec, hrcF, hgroup, hid, hoffT, hoff]
    simp [jsTruthy, hk]
  · intro hother
    rcases hother with h | h | h | h
    · simp only [processMessage, hdec, h]
      simp
    · by_cases hrc : jsTruthy d.rc = true
      · simp only [processMessage, hdec, hrc]; simp
      · simp only [processMessage, hdec, Bool.not_eq_true] at hrc ⊢
        simp [hrc, h]
    · by_cases hrc : jsTruthy d.rc = true
      · simp only [processMessage, hdec, hrc]; simp
      · simp only [processMessage, hdec, Bool.not_eq_true] at hrc ⊢
        simp [hrc, h]
    · by_cases hrc : jsTruthy d.rc = true
      · simp only [processMessage, hdec, hrc]; simp
      · simp only [processMessage, hdec, Bool.not_eq_true] at hrc ⊢
        simp [hrc, h]

/-- Witness for C2's amended theorem at a concrete acknowledgement with
`off = 5`: consumed (the session had no image, so `_uploadNext` only
logs), offset updated to 5, nothing dispatched. -/
theorem C2_routing_witness :
    processMessage decAck5 encZero 400 idleState ackFrame5 =
      .ok (⟨false, 5, none, none, false⟩, .consumed .noImage) := by
  exact (C2_routing decAck5 encZero 400 idleState ackFrame5 ⟨none, some 5⟩ rfl).1
    (Or.inl rfl) rfl rfl 5 rfl (by decide)

/-- One `_notification` delivery whose post-append buffer is a complete
frame `f` followed by `rest` extracts exactly `f` and leaves `rest`
buffered. -/
theorem notificationStep_extracts (dec : List Nat → Option MsgData) (f rest : List Nat)
    (d : MsgData) (b2 b3 : Nat)
    (h2 : f.get? 2 = some b2) (h3 : f.get? 3 = some b3)
    (hlen : f.length = 8 + (b2 * 256 + b3))
    (hdec : dec (f.drop 8) = some d)
    (buffer fragment : List Nat) (hbf : buffer ++ fragment = f ++ rest) :
    notificationStep dec buffer fragment = .ok (rest, some f) := by
  have h2lt : 2 < f.length := by omega
  have h3lt : 3 < f.length := by omega
  have hg2 : jsGet (f ++ rest) 2 = some b2 := by
    simpa [jsGet, List.get?_eq_getElem?, List.getElem?_append, h2lt] using h2
  have hg3 : jsGet (f ++ rest) 3 = some b3 := by
    simpa [jsGet, List.get?_eq_getElem?, List.getElem?_append, h3lt] using h3
  have htot : b2 * 256 + b3 + 8 = f.length := by omega
  have hnlt : jsLtLen (f ++ rest).length (some (b2 * 256 + b3 + 8)) = false := by
    simp only [jsLtLen, htot, List.length_append, decide_eq_false_iff_not]
    omega
  have htake : (f ++ rest).take (b2 * 256 + b3 + 8) = f := by
    rw [htot, List.take_left]
  have hdrop : (f ++ rest).drop (b2 * 256 + b3 + 8) = rest := by
    rw [htot, List.drop_left]
  simp only [notificationStep, hbf, hg2, hg3, jsMulC, jsAddC, Option.map_some']
  simp only [hnlt, Bool.false_eq_true, if_false, jsToIndex, htake, hdrop, hdec]

/-- C3 (amended): two complete frames delivered concatenated in one
`_notification` call yield exactly ONE extracted-and-decoded frame — the
first — with the second frame's bytes left in the accumulator; the second
frame is extracted only by the next fragment delivery (whatever bytes that
delivery carries). -/
theorem C3_one_frame_per_delivery (dec : List Nat → Option MsgData)
    (f1 f2 g : List Nat) (d1 d2 : MsgData) (b2 b3 c2 c3 : Nat)
    (h12 : f1.get? 2 = some b2) (h13 : f1.get? 3 = some b3)
    (hl1 : f1.length = 8 + (b2 * 256 + b3))
    (h22 : f2.get? 2 = some c2) (h23 : f2.get? 3 = some c3)
    (hl2 : f2.length = 8 + (c2 * 256 + c3))
    (hd1 : dec (f1.drop 8) = some d1) (hd2 : dec (f2.drop 8) = some d2) :
    notificationStep dec [] (f1 ++ f2) = .ok (f2, some f1) ∧
    notificationStep dec f2 g = .ok (g, some f2) := by
  constructor
  · exact notificationStep_extracts dec f1 f2 d1 b2 b3 h12 h13 hl1 hd1 [] (f1 ++ f2) rfl
  · exact notificationStep_extracts dec f2 g d2 c2 c3 h22 h23 hl2 hd2 f2 g rfl

/-- Witness for C3's amended theorem at the concrete frames `frameA`,
`frameB`: the first delivery extracts only `frameA`, the second delivery
(here carrying no further bytes) extracts `frameB`. -/
theorem C3_one_frame_per_delivery_witness :
    notificationStep decFrames [] (frameA ++ frameB) = .ok (frameB, some frameA) ∧
    notificationStep decFrames frameB [] = .ok ([], some frameB) := by
  exact C3_one_frame_per_delivery decFrames frameA frameB [] ⟨none, none⟩ ⟨none, none⟩
    0 1 0 1 rfl rfl rfl rfl rfl rfl rfl rfl

/-- C5 (amended): whenever `_uploadNext` runs with `offset ≥ totalLength`,
it sets `isInProgress := false` and emits `uploadFinished` with the parsed
descriptor's hash — and changes NOTHING else: the stored image, descriptor
and offset all survive, which is what lets a post-completion Upload
acknowledgement re-enter `_uploadNext` and emit `uploadFinished` again. -/
theorem C5_completion (enc : Chunk → List Nat) (mtu : Nat) (st : UploadState)
    (img : List Nat) (himg : st.image = some img) (hoff : img.length ≤ st.offset) :
    uploadNext enc mtu st =
      ({ st with isInProgress := false }, .finished (st.imageInfo.map (·.hash))) := by
  simp only [uploadNext, himg, hoff, if_true]

/-- Witness for C5's amended theorem at the concrete completed session
`doneState`: `uploadFinished` fires (again) with the parsed hash and the
state still holds the image. -/
theorem C5_completion_witness :
    uploadNext encZero 400 doneState =
      (doneState, .finished (some (sha256Bytes imgHeader))) := by
  exact C5_completion encZero 400 doneState imgNoTags rfl (by decide)

/-- The parser-produced descriptor of `imgNoTags`. -/
def imgNoTagsInfo : McuImageInfo :=
  ⟨0, ⟨1, 2, 3, 7⟩, sha256Bytes imgHeader, false, []⟩

/-- The chunk `_uploadNext` builds and sends at `offset == 0`: empty
`data` placeholder plus `len`/`sha`, then `data` sized to
`mtu - encode(payload).byteLength - 8`. -/
def startChunk (enc : Chunk → List Nat) (mtu : Nat) (img : List Nat) : Chunk :=
  let base : Chunk :=
    { data := [], off := 0, len := some img.length,
      sha := some (sha256Bytes img) }
  { base with
    data := jsSliceInt img 0 ((mtu : Int) - ((enc base).length : Int) - 8) }

/-- C6 (amended): on every successful upload start, the chunk sent at
`offset == 0` carries `len = totalLength` and `sha` = the SHA-256 of the
ENTIRE image buffer, while the stored descriptor's hash — the one the
`uploadFinished` event later carries — is the SHA-256 of
`image[0 : headerSize+imageSize+protectedTlvAreaSize]` only. -/
theorem C6_chunk0_sha (enc : Chunk → List Nat) (mtu : Nat) (st : UploadState)
    (img : List Nat) (info : McuImageInfo)
    (hidle : st.isInProgress = false) (hok : imageInfo img = .ok info) :
    ∃ stF c, cmdUpload enc mtu st img = (stF, .started (.sent c)) ∧
      c.off = 0 ∧ c.len = some img.length ∧ c.sha = some (sha256Bytes img) ∧
      stF.imageInfo = some info ∧
      info.hash =
        sha256Bytes (jsSliceNat img 0 (getU16LE img 8 + getU32LE img 12 + getU16LE img 10)) := by
  obtain ⟨h32, hh, -⟩ := imageInfo_ok_spec img info hok
  have hpos : ¬ img.length ≤ 0 := by omega
  refine ⟨⟨true, 0, some img, some info, true⟩,
    startChunk enc mtu img, ?_, rfl, rfl, rfl, rfl, hh⟩
  simp only [cmdUpload, hidle, Bool.false_eq_true, if_false, hok]
  simp only [uploadNext, hpos, if_false, startChunk]
  simp

/-- Witness for C6's amended theorem at the concrete image `imgNoTags`
started on an idle engine. -/
theorem C6_chunk0_sha_witness :
    ∃ stF c, cmdUpload encZero 400 idleState imgNoTags = (stF, .started (.sent c)) ∧
      c.off = 0 ∧ c.len = some 36 ∧ c.sha = some (sha256Bytes imgNoTags) ∧
      stF.imageInfo = some imgNoTagsInfo ∧
      imgNoTagsInfo.hash = sha256Bytes (jsSliceNat imgNoTags 0 32) := by
  exact C6_chunk0_sha encZero 400 idleState imgNoTags imgNoTagsInfo rfl rfl

/-! ## Claim C7 -/

/-- C7: for every image the parser accepts, the descriptor's `hashValid`
is `true` if and only if the merged tags map tag 16 to a 32-byte value
byte-for-byte equal to the computed digest over
`image[0 : headerSize+imageSize+protectedTlvAreaSize]`; a mismatch is only
reported through `hashValid` — the parse itself still returns the
descriptor. -/
theorem C7_hashValid_iff (img : List Nat) (info : McuImageInfo)
    (hok : imageInfo img = .ok info) :
    (info.hashValid = true ↔
      ∃ v, tagsLookup info.tags 16 = some v ∧ v.length = 32 ∧
        v = sha256Bytes
          (jsSliceNat img 0 (getU16LE img 8 + getU32LE img 12 + getU16LE img 10))) := by
  obtain ⟨-, hh, hv⟩ := imageInfo_ok_spec img info hok
  rw [hv, hh]
  unfold hashValidOf
  cases hcase : tagsLookup info.tags 16 with
  | none => simp [hcase]
  | some v =>
    constructor
    · intro h
      have hvD : v = sha256Bytes
          (jsSliceNat img 0 (getU16LE img 8 + getU32LE img 12 + getU16LE img 10)) := by
        have := (Bool.and_eq_true _ _).mp h
        simpa using this.2
      exact ⟨v, rfl, by rw [hvD, sha256Bytes_length], hvD⟩
    · rintro ⟨w, hw, hwlen, hwD⟩
      have hvw : v = w := by simpa using hw
      subst hvw
      simp [hwD]

/-- Witness for C7 at the concrete image `imgGoodHash`, whose trailer
carries tag 16 with the correct digest: `hashValid` comes out `true`. -/
theorem C7_hashValid_iff_witness : imgGoodHashInfo.hashValid = true := by
  exact (C7_hashValid_iff imgGoodHash imgGoodHashInfo rfl).mpr
    ⟨sha256Bytes imgHeader, rfl, sha256Bytes_length imgHeader, rfl⟩

/-! ## Claim C8 -/

/-- C8 (amended): one `_extractTlvs` step at `offset` inside the range:
(1) if the 4-byte entry header fits, the entry `(tag, value)` is read with
`tag`/`len` little-endian at `offset`/`offset+2` and iteration continues
at `offset + 4 + len`; (2) if the header itself would read past the range
end, iteration fails with a range error; (3) past the end, iteration stops;
(4) a value that fits is exactly the declared `len` bytes; (5) BUT a value
whose declared `len` overruns the range end is silently truncated to the
bytes that remain — not an error. -/
theorem C8_tlv_steps (data : List Nat) (offset : Nat) :
    (offset < data.length → offset + 4 ≤ data.length →
      extractTlvsFrom data offset =
        Except.map
          (fun rest => (getU16LE data offset,
            jsSliceNat data (offset + 4) (offset + 4 + getU16LE data (offset + 2))) :: rest)
          (extractTlvsFrom data (offset + 4 + getU16LE data (offset + 2)))) ∧
    (offset < data.length → data.length < offset + 4 →
      extractTlvsFrom data offset = .error .rangeErr) ∧
    (data.length ≤ offset → extractTlvsFrom data offset = .ok []) ∧
    (offset + 4 + getU16LE data (offset + 2) ≤ data.length →
      (jsSliceNat data (offset + 4) (offset + 4 + getU16LE data (offset + 2))).length =
        getU16LE data (offset + 2)) ∧
    (offset + 4 ≤ data.length → data.length < offset + 4 + getU16LE data (offset + 2) →
      jsSliceNat data (offset + 4) (offset + 4 + getU16LE data (offset + 2)) =
        data.drop (offset + 4)) := by
  refine ⟨?_, ?_, ?_, ?_, ?_⟩
  · intro h1 h2
    have hr1 : readU16LE data offset = .ok (getU16LE data offset) := by
      unfold readU16LE getU16LE
      rw [if_pos (by omega)]
    have hr2 : readU16LE data (offset + 2) = .ok (getU16LE data (offset + 2)) := by
      unfold readU16LE getU16LE
      rw [if_pos (by omega)]
    show extractTlvsAux data (data.length + 1) offset = _
    rw [extractTlvsAux, if_pos h1, hr1, hr2]
    dsimp only
    rw [show extractTlvsAux data data.length (offset + 4 + getU16LE data (offset + 2)) =
        extractTlvsFrom data (offset + 4 + getU16LE data (offset + 2)) from
      extractTlvsAux_stable data data.length (data.length + 1) _ (by omega) (by omega)]
    cases extractTlvsFrom data (offset + 4 + getU16LE data (offset + 2)) <;> rfl
  · intro h1 h2
    show extractTlvsAux data (data.length + 1) offset = _
    rw [extractTlvsAux, if_pos h1]
    by_cases h22 : offset + 2 + 2 ≤ data.length
    · omega
    · by_cases h21 : offset + 2 ≤ data.length
      · have hr1 : readU16LE data offset = .ok (getU16LE data offset) := by
          unfold readU16LE getU16LE
          rw [if_pos (by omega)]
        have hr2 : readU16LE data (offset + 2) = .error .rangeErr := by
          unfold readU16LE
          rw [if_neg (by omega)]
        rw [hr1, hr2]
      · have hr1 : readU16LE data offset = .error .rangeErr := by
          unfold readU16LE
          rw [if_neg (by omega)]
        rw [hr1]
  · intro h
    show extractTlvsAux data (data.length + 1) offset = _
    rw [extractTlvsAux, if_neg (by omega)]
  · intro h
    simp only [jsSliceNat, List.length_drop, List.length_take]
    omega
  · intro h1 h2
    simp only [jsSliceNat]
    rw [List.take_of_length_le (by omega)]

/-- Witness for C8's amended theorem: a well-formed step on the concrete
range `[1, 0, 2, 0, 9, 9]` reads the entry `(1, [9, 9])` and continues at
offset 6. -/
theorem C8_tlv_steps_witness :
    extractTlvsFrom [1, 0, 2, 0, 9, 9] 0 =
      Except.map (fun rest => (1, [9, 9]) :: rest) (extractTlvsFrom [1, 0, 2, 0, 9, 9] 6) := by
  exact (C8_tlv_steps [1, 0, 2, 0, 9, 9] 0).1 (by decide) (by decide)

/-! ## Claim C9 -/

/-- C9 counterexample: the body value `0` is round-tripped by the
structured-value codec (`decNat (encNat 0) = some 0`, as `cborg` does),
but `_sendMessage`'s `if (data)` truthiness test drops falsy body values:
the sent frame has a zero-length body, whose decode fails, and a length
field of `0` instead of the encoded body's byte length `1`. -/
theorem C9_falsy_body_lost :
    decNat (encNat 0) = some 0 ∧
    (frameFields decNat (sendMessageBytes encNat trNat 2 1 0 1 (some 0))).body = none ∧
    (frameFields decNat (sendMessageBytes encNat trNat 2 1 0 1 (some 0))).len = some 0 ∧
    (encNat 0).length = 1 := by
  refine ⟨rfl, rfl, rfl, rfl⟩

/-- Reducing a list of bytes mod 256 changes nothing. -/
theorem map_mod256_eq (l : List Nat) (h : ∀ b ∈ l, b < 256) : l.map (· % 256) = l := by
  induction l with
  | nil => rfl
  | cons a t ih =>
    simp only [List.map_cons, List.cons.injEq]
    exact ⟨Nat.mod_eq_of_lt (h a (by simp)), ih (fun b hb => h b (by simp [hb]))⟩

/-- C9 (amended): for every operation in `{0,1,2,3}`, 16-bit `groupId`,
8-bit `commandId` and `sequence`, and every TRUTHY body value that the
structured-value codec round-trips into fewer than 2^16 bytes, the sent
frame is exactly the 8-byte big-endian header
`[op, 0, len_hi, len_lo, group_hi, group_lo, seq, id]` followed by the
encoded body, and `_processMessage`'s header read recovers the operation,
group, command id, body value, and a length equal to the encoded body's
byte length.  (A falsy body value — e.g. the integer `0` — is dropped by
`if (data)` and does not round-trip; see the counterexample.) -/
theorem C9_roundtrip {α : Type} (enc : α → List Nat) (dec : List Nat → Option α)
    (tr : α → Bool) (op group seq id : Nat) (v : α)
    (hop : op ≤ 3) (hgroup : group < 65536) (hseq : seq < 256) (hid : id < 256)
    (htr : tr v = true) (hbytes : ∀ b ∈ enc v, b < 256) (hlen : (enc v).length < 65536)
    (hrt : dec (enc v) = some v) :
    sendMessageBytes enc tr op group seq id (some v) =
      [op, 0, (enc v).length / 256, (enc v).length % 256,
        group / 256, group % 256, seq, id] ++ enc v ∧
    frameFields dec (sendMessageBytes enc tr op group seq id (some v)) =
      ⟨some op, some group, some id, some (enc v).length, some v⟩ := by
  have hhdr : sendMessageBytes enc tr op group seq id (some v) =
      [op, 0, (enc v).length / 256, (enc v).length % 256,
        group / 256, group % 256, seq, id] ++ enc v := by
    simp only [sendMessageBytes, htr, if_true, List.map_append, map_mod256_eq _ hbytes,
      List.map_cons, List.map_nil]
    have e1 : op % 256 = op := by omega
    have e3 : (enc v).length / 256 % 256 = (enc v).length / 256 := by omega
    have e4 : (enc v).length % 256 % 256 = (enc v).length % 256 := by omega
    have e5 : group / 256 % 256 = group / 256 := by omega
    have e6 : group % 256 % 256 = group % 256 := by omega
    have e7 : seq % 256 = seq := by omega
    have e8 : id % 256 = id := by omega
    rw [e1, e3, e4, e5, e6, e7, e8]
  refine ⟨hhdr, ?_⟩
  rw [hhdr]
  have hg : group / 256 * 256 + group % 256 = group := by omega
  have hl : (enc v).length / 256 * 256 + (enc v).length % 256 = (enc v).length := by omega
  conv_rhs => rw [← hg, ← hl, ← hrt]
  rfl

/-- Witness for C9's amended theorem at a concrete truthy body value. -/
theorem C9_roundtrip_witness :
    sendMessageBytes encNat trNat 2 1 0 1 (some 5) = [2, 0, 0, 1, 0, 1, 0, 1] ++ encNat 5 ∧
    frameFields decNat (sendMessageBytes encNat trNat 2 1 0 1 (some 5)) =
      ⟨some 2, some 1, some 1, some 1, some 5⟩ := by
  exact C9_roundtrip encNat decNat trNat 2 1 0 1 5 (by decide) (by decide) (by decide)
    (by decide) (by decide) (by decide) (by decide) (by decide)

/-! ## Claim C10 -/

/-- The accumulator starts with a complete frame (its length field at
bytes 2–3 is covered, and `8 + bodyLength` bytes are present) whose body
fails to decode. -/
def hasBadHead (dec : List Nat → Option MsgData) (buf : List Nat) : Prop :=
  ∃ b2 b3, buf.get? 2 = some b2 ∧ buf.get? 3 = some b3 ∧
    8 + (b2 * 256 + b3) ≤ buf.length ∧
    dec ((buf.take (b2 * 256 + b3 + 8)).drop 8) = none

/-- Appending bytes to the accumulator keeps the undecodable complete
frame at its front. -/
theorem hasBadHead_append (dec : List Nat → Option MsgData) (buf extra : List Nat)
    (h : hasBadHead dec buf) : hasBadHead dec (buf ++ extra) := by
  obtain ⟨b2, b3, h2, h3, hle, hdec⟩ := h
  refine ⟨b2, b3, ?_, ?_, ?_, ?_⟩
  · simpa [List.get?_eq_getElem?, List.getElem?_append,
      (by omega : (2 : Nat) < buf.length)] using h2
  · simpa [List.get?_eq_getElem?, List.getElem?_append,
      (by omega : (3 : Nat) < buf.length)] using h3
  · simp only [List.length_append]
    omega
  · rw [List.take_append_of_le_length (by omega)]
    exact hdec

/-- A `_notification` delivery while the accumulator starts with a
complete, undecodable frame throws out of the handler: the frame is
re-extracted, its body decode fails, and the buffer-trimming line is never
reached — the Except carries the whole (appended-to) buffer. -/
theorem badHead_step (dec : List Nat → Option MsgData) (buffer fragment : List Nat)
    (h : hasBadHead dec (buffer ++ fragment)) :
    notificationStep dec buffer fragment = .error (buffer ++ fragment) := by
  obtain ⟨b2, b3, h2, h3, hle, hdec⟩ := h
  have hnlt : jsLtLen (buffer ++ fragment).length (some (b2 * 256 + b3 + 8)) = false := by
    simp only [jsLtLen, decide_eq_false_iff_not]
    omega
  simp only [notificationStep, jsGet, h2, h3, jsMulC, jsAddC, Option.map_some']
  simp only [hnlt, Bool.false_eq_true, if_false, jsToIndex, hdec]

/-- C10: once a complete frame whose body is not valid encoded structured
data (for instance a zero-length body, which the codec rejects) heads the
accumulator, every subsequent fragment delivery re-extracts that same
frame, fails its decode again, and leaves every byte buffered — so over
any sequence of later fragments, no frame is ever extracted or dispatched,
every delivery ends in a thrown decode error, and the accumulator just
grows. -/
theorem C10_poisoned_buffer (dec : List Nat → Option MsgData) (buf : List Nat)
    (fs : List (List Nat)) (h : hasBadHead dec buf) :
    runFragments dec buf fs = ⟨buf ++ fs.flatten, [], fs.length⟩ := by
  induction fs generalizing buf with
  | nil => simp [runFragments]
  | cons f fs ih =>
    have hbf := hasBadHead_append dec buf f h
    have hstep := badHead_step dec buf f hbf
    simp only [runFragments, hstep]
    rw [ih (buf ++ f) hbf]
    simp [List.append_assoc]

/-- Witness for C10 at a concrete poisoned buffer (`badBuf`, body `[2]`
rejected by `decOnly1`) and two later fragment deliveries: nothing is
extracted, both deliveries throw, all bytes accumulate. -/
theorem C10_poisoned_buffer_witness :
    runFragments decOnly1 badBuf [[5], [6, 7]] = ⟨badBuf ++ [5, 6, 7], [], 2⟩ := by
  exact C10_poisoned_buffer decOnly1 badBuf [[5], [6, 7]] ⟨0, 1, rfl, rfl, by decide, rfl⟩

end Mcu
